import Mathlib

/-!
Shallow embedding of the spec → plan → execution pipeline of the
`one-publish` repository (`src-tauri/src/{spec,parameter,command_parser,
plan,compiler,errors,commands}.rs` and `src-tauri/src/provider/registry.rs`),
together with theorems settling the frozen claims about it.

Modelling conventions:
* Rust `BTreeMap<String, _>` is an association list kept sorted by key;
  `btree_insert` mirrors `BTreeMap::insert` (replace on equal key, keep
  sorted order) and `btree_get` mirrors `BTreeMap::get`.  Iteration over a
  `BTreeMap` is iteration over the sorted list.
* Rust `f64` values are represented by their canonical Rust `Display`
  text (`F64.repr`): every place the pipeline touches a number it only
  ever formats it with `{}` (or feeds it to `serde_json::Number::from_f64`,
  where only the NaN/infinite cases matter), so the display text is a
  faithful observable of the value for everything the claims test.
* Rust `Result<T, E>` is `Except E T`; `Option` is `Option`.
* Errors that Rust stores as `format!("{:?}", value)` debug strings keep
  the offending value itself instead of its printed text; this is an
  injective refinement and no claim inspects the text.
-/

namespace OnePublish

/-- Stand-in for Rust `f64`, represented by its canonical `Display` text. -/
structure F64 where
  repr : String
deriving DecidableEq

/-- Mirror of `spec.rs::SpecValue` (an untagged JSON-like value algebra).
`map` carries a `BTreeMap<String, SpecValue>` as a sorted association
list. -/
inductive SpecValue where
  | null
  | bool (b : Bool)
  | number (n : F64)
  | string (s : String)
  | list (xs : List SpecValue)
  | map (m : List (String × SpecValue))

/-- Mirror of `spec.rs::SPEC_VERSION`. -/
def SPEC_VERSION : Nat := 1

/-- Mirror of `spec.rs::PublishSpec`. -/
structure PublishSpec where
  version : Nat
  provider_id : String
  project_path : String
  parameters : List (String × SpecValue)

/-- `BTreeMap::get` on a sorted association list (first matching key). -/
def btree_get {α : Type} (k : String) : List (String × α) → Option α
  | [] => none
  | (k', v) :: rest => if k = k' then some v else btree_get k rest

/-- Lexicographic order on character lists by code point; on strings this
coincides with the byte order Rust's `BTreeMap<String, _>` sorts by,
because UTF-8 preserves code-point order. -/
def charsLt : List Char → List Char → Bool
  | [], [] => false
  | [], _ :: _ => true
  | _ :: _, [] => false
  | a :: as, b :: bs =>
    if a.toNat < b.toNat then true
    else if b.toNat < a.toNat then false
    else charsLt as bs

/-- String order used to keep the association lists sorted. -/
def strLt (a b : String) : Bool := charsLt a.data b.data

/-- `BTreeMap::insert` on a sorted association list: replaces the value at
an existing key, otherwise inserts at the sorted position. -/
def btree_insert {α : Type} (k : String) (v : α) : List (String × α) → List (String × α)
  | [] => [(k, v)]
  | (k', v') :: rest =>
    if strLt k k' then (k, v) :: (k', v') :: rest
    else if k = k' then (k, v) :: rest
    else (k', v') :: btree_insert k v rest

/-- Mirror of `parameter.rs::ParameterType`. -/
inductive ParameterType where
  | boolean
  | string
  | array
  | map
deriving DecidableEq

/-- Mirror of `parameter.rs::ParameterDefinition`.  The Rust field
`prefix` is called `prefixStr` here because `prefix` is a Lean keyword. -/
structure ParameterDefinition where
  param_type : ParameterType
  flag : String
  multiple : Option Bool := none
  prefixStr : Option String := none
  description : Option String := none

/-- Mirror of `parameter.rs::ParameterSchema`. -/
structure ParameterSchema where
  parameters : List (String × ParameterDefinition)

/-- Mirror of `parameter.rs::RenderedCommand`. -/
structure RenderedCommand where
  args : List String
  env : List (String × String)

/-- Mirror of `parameter.rs::RenderError`.  The `item`/`value` payloads
keep the offending `SpecValue` where Rust stores `format!("{:?}", ..)`. -/
inductive RenderError where
  | unknownParameter (name : String)
  | invalidType (parameter : String) (expected : String)
  | invalidArrayTypeItem (parameter : String) (item : SpecValue)
  | missingPrefix (parameter : String)
  | invalidMapValue (parameter : String) (key : String) (value : SpecValue)

/-- Mirror of `ParameterRenderer::render_boolean`; returns the argument
tokens that the Rust code pushes onto `args`. -/
def render_boolean (def_ : ParameterDefinition) (key : String) (value : SpecValue) :
    Except RenderError (List String) :=
  match value with
  | .bool true => .ok [def_.flag]
  | .bool false => .ok []
  | .null => .ok []
  | _ => .error (.invalidType key "boolean")

/-- Mirror of `ParameterRenderer::render_string`. -/
def render_string (def_ : ParameterDefinition) (key : String) (value : SpecValue) :
    Except RenderError (List String) :=
  match value with
  | .string s => .ok [def_.flag, s]
  | .number n => .ok [def_.flag, n.repr]
  | .null => .ok []
  | _ => .error (.invalidType key "string or number")

/-- Element loop of `ParameterRenderer::render_array`. -/
def render_array_items (flag : String) (key : String) :
    List SpecValue → Except RenderError (List String)
  | [] => .ok []
  | item :: rest =>
    match item with
    | .string s => (render_array_items flag key rest).map (fun xs => flag :: s :: xs)
    | .number n => (render_array_items flag key rest).map (fun xs => flag :: n.repr :: xs)
    | _ => .error (.invalidArrayTypeItem key item)

/-- Mirror of `ParameterRenderer::render_array`. -/
def render_array (def_ : ParameterDefinition) (key : String) (value : SpecValue) :
    Except RenderError (List String) :=
  match value with
  | .list items => render_array_items def_.flag key items
  | .null => .ok []
  | _ => .error (.invalidType key "array")

/-- Rust `format!("{}", b)` for a `bool`. -/
def boolText (b : Bool) : String := if b then "true" else "false"

/-- Entry loop of `ParameterRenderer::render_map`. -/
def render_map_entries (pre : String) (key : String) :
    List (String × SpecValue) → Except RenderError (List String)
  | [] => .ok []
  | (k, v) :: rest =>
    match v with
    | .string s => (render_map_entries pre key rest).map (fun xs => (pre ++ k ++ "=" ++ s) :: xs)
    | .number n => (render_map_entries pre key rest).map (fun xs => (pre ++ k ++ "=" ++ n.repr) :: xs)
    | .bool b => (render_map_entries pre key rest).map (fun xs => (pre ++ k ++ "=" ++ boolText b) :: xs)
    | _ => .error (.invalidMapValue key k v)

/-- Mirror of `ParameterRenderer::render_map`: the prefix is demanded
before the value is even inspected. -/
def render_map (def_ : ParameterDefinition) (key : String) (value : SpecValue) :
    Except RenderError (List String) :=
  match def_.prefixStr with
  | none => .error (.missingPrefix key)
  | some pre =>
    match value with
    | .map m => render_map_entries pre key m
    | .null => .ok []
    | _ => .error (.invalidType key "map")

/-- Parameter loop of `ParameterRenderer::render`: walks the (sorted)
parameter map, dispatching on the schema entry's declared type. -/
def render_params (schema : ParameterSchema) :
    List (String × SpecValue) → Except RenderError (List String)
  | [] => .ok []
  | (key, value) :: rest =>
    match btree_get key schema.parameters with
    | none => .error (.unknownParameter key)
    | some def_ =>
      let piece :=
        match def_.param_type with
        | .boolean => render_boolean def_ key value
        | .string => render_string def_ key value
        | .array => render_array def_ key value
        | .map => render_map def_ key value
      match piece with
      | .error e => .error e
      | .ok xs => (render_params schema rest).map (fun ys => xs ++ ys)

/-- Mirror of `ParameterRenderer::render`: `env` is created empty and
never extended. -/
def render (schema : ParameterSchema) (params : List (String × SpecValue)) :
    Except RenderError RenderedCommand :=
  (render_params schema params).map (fun args => { args := args, env := [] })

/-! ### Command parser (`command_parser.rs`) -/

/-- Mirror of `command_parser.rs::ParseError`. -/
inductive ParseError where
  | unknownCommand (c : String)
  | invalidFlag (f : String)
  | missingValue (f : String)
  | providerNotFound (p : String)

/-- Rust `str::contains(char)` over the string's characters. -/
def strContains (s : String) (c : Char) : Bool := s.data.contains c

/-- Rust `str::starts_with(&str)` as a character-list prefix test. -/
def strStartsWith (s p : String) : Bool := p.data.isPrefixOf s.data

/-- Rust `str::split_once('=')`: splits at the first `=`, when present. -/
def splitOnceEqChars : List Char → Option (List Char × List Char)
  | [] => none
  | c :: rest =>
    if c = '=' then some ([], rest)
    else (splitOnceEqChars rest).map (fun p => (c :: p.1, p.2))

/-- Mirror of `command_parser.rs::parse_map_assignment`: `split_once('=')`
with an empty key rejected. -/
def parse_map_assignment (raw : String) : Option (String × String) :=
  match splitOnceEqChars raw.data with
  | none => none
  | some (k, v) => if k = [] then none else some (⟨k⟩, ⟨v⟩)

/-- Mirror of `command_parser.rs::insert_map_entry`: folds one `key=value`
pair into the accumulating inner map of `param_key`, starting a fresh
singleton map when the slot does not already hold a `Map`. -/
def insert_map_entry (parameters : List (String × SpecValue)) (param_key entry_key entry_value : String) :
    List (String × SpecValue) :=
  match btree_get param_key parameters with
  | some (.map existing) =>
    btree_insert param_key (.map (btree_insert entry_key (.string entry_value) existing)) parameters
  | _ => btree_insert param_key (.map [(entry_key, .string entry_value)]) parameters

/-- Mirror of `command_parser.rs::parse_prefixed_map_token`: scans the
schema (in its sorted order) for a `Map`-typed entry whose prefix heads
the token and whose remainder is a well-formed `key=value` assignment. -/
def parse_prefixed_map_token (token : String) (schema : ParameterSchema) :
    Option (String × String × String) :=
  go schema.parameters
where
  go : List (String × ParameterDefinition) → Option (String × String × String)
    | [] => none
    | (param_key, def_) :: rest =>
      if def_.param_type = .map then
        match def_.prefixStr with
        | some pre =>
          if strStartsWith token pre ∧ token.data.length > pre.data.length then
            match parse_map_assignment ⟨token.data.drop pre.data.length⟩ with
            | some (entry_key, entry_value) => some (param_key, entry_key, entry_value)
            | none => go rest
          else go rest
        | none => go rest
      else go rest

/-- Mirror of `command_parser.rs::parse_prefixed_string_token`: scans the
schema for a `String`-typed entry with an empty flag and a prefix heading
the token; the remainder is the value. -/
def parse_prefixed_string_token (token : String) (schema : ParameterSchema) :
    Option (String × String) :=
  go schema.parameters
where
  go : List (String × ParameterDefinition) → Option (String × String)
    | [] => none
    | (param_key, def_) :: rest =>
      if def_.param_type = .string ∧ def_.flag = "" then
        match def_.prefixStr with
        | some pre =>
          if strStartsWith token pre ∧ token.data.length > pre.data.length then
            some (param_key, ⟨token.data.drop pre.data.length⟩)
          else go rest
        | none => go rest
      else go rest

/-- Mirror of `command_parser.rs::map_dotnet_flag`. -/
def map_dotnet_flag (flag : String) : Option String :=
  if flag = "-c" ∨ flag = "--configuration" then some "configuration"
  else if flag = "-r" ∨ flag = "--runtime" then some "runtime"
  else if flag = "-f" ∨ flag = "--framework" then some "framework"
  else if flag = "-o" ∨ flag = "--output" then some "output"
  else if flag = "--self-contained" then some "self_contained"
  else if flag = "--no-build" then some "no_build"
  else if flag = "--no-restore" then some "no_restore"
  else if flag = "--verbosity" then some "verbosity"
  else if flag = "--no-logo" then some "no_logo"
  else if flag = "-d" ∨ flag = "--define" then some "define"
  else none

/-- Mirror of `command_parser.rs::map_cargo_flag`. -/
def map_cargo_flag (flag : String) : Option String :=
  if flag = "--release" then some "release"
  else if flag = "--target" then some "target"
  else if flag = "--features" then some "features"
  else if flag = "--all-features" then some "all_features"
  else if flag = "--no-default-features" then some "no_default_features"
  else if flag = "--target-dir" then some "target_dir"
  else if flag = "--message-format" then some "message_format"
  else if flag = "--verbose" ∨ flag = "-v" then some "verbose"
  else if flag = "--quiet" then some "quiet"
  else none

/-- Mirror of `command_parser.rs::map_go_flag`. -/
def map_go_flag (flag : String) : Option String :=
  if flag = "-o" then some "output"
  else if flag = "-tags" then some "tags"
  else if flag = "-race" then some "race"
  else if flag = "-v" then some "v"
  else if flag = "-work" then some "work"
  else if flag = "-trimpath" then some "trimpath"
  else none

/-- Mirror of `command_parser.rs::map_java_flag`. -/
def map_java_flag (flag : String) : Option String :=
  if flag = "-D" then some "properties"
  else if flag = "--offline" then some "offline"
  else if flag = "--quiet" then some "quiet"
  else if flag = "--info" then some "info"
  else if flag = "--debug" then some "debug"
  else if flag = "--stacktrace" then some "stacktrace"
  else if flag = "--rerun-tasks" then some "rerun_tasks"
  else if flag = "--exclude-task" then some "exclude_task"
  else none

/-- Mirror of `CommandParser::map_flag_to_param` (dispatch on provider id). -/
def map_flag_to_param (provider_id flag : String) : Option String :=
  if provider_id = "dotnet" then map_dotnet_flag flag
  else if provider_id = "cargo" then map_cargo_flag flag
  else if provider_id = "go" then map_go_flag flag
  else if provider_id = "java" then map_java_flag flag
  else none

/-- Rust whitespace classification used by `char::is_whitespace` for the
characters that can actually occur here (ASCII). -/
def isWs (c : Char) : Bool := c = ' ' ∨ c = '\t' ∨ c = '\n' ∨ c = '\r'

/-- Rust `str::trim` on characters: strip leading and trailing whitespace. -/
def strTrim (s : String) : String :=
  ⟨((s.data.dropWhile isWs).reverse.dropWhile isWs).reverse⟩

/-- Rust `str::split(',')` on characters. -/
def splitCommaChars : List Char → List (List Char)
  | [] => [[]]
  | c :: rest =>
    if c = ',' then [] :: splitCommaChars rest
    else
      match splitCommaChars rest with
      | [] => [[c]]
      | t :: ts => (c :: t) :: ts

/-- The `Array` coercion of `parse_tokens`: comma-split, trim each piece. -/
def splitCommaTrim (v : String) : List SpecValue :=
  (splitCommaChars v.data).map (fun cs => .string (strTrim ⟨cs⟩))

/-- The flag-coercion block of `parse_tokens` (lines 92–129): maps the
flag spelling through the provider table, looks the canonical key up in
the schema, and coerces the raw value by the declared parameter type.
Unknown flags, unknown keys, and unsupported type/value combinations
leave the parameter map unchanged. -/
def apply_flag (provider_id : String) (schema : ParameterSchema)
    (parameters : List (String × SpecValue)) (flag_name : String) (value : Option String) :
    List (String × SpecValue) :=
  match map_flag_to_param provider_id flag_name with
  | none => parameters
  | some param_key =>
    match btree_get param_key schema.parameters with
    | none => parameters
    | some def_ =>
      match def_.param_type, value with
      | .boolean, none => btree_insert param_key (.bool true) parameters
      | .string, some v => btree_insert param_key (.string v) parameters
      | .string, none => btree_insert param_key (.string "") parameters
      | .array, some v => btree_insert param_key (.list (splitCommaTrim v)) parameters
      | .map, some v =>
        match parse_map_assignment v with
        | some (entry_key, entry_value) => insert_map_entry parameters param_key entry_key entry_value
        | none => parameters
      | _, _ => parameters

/-- One iteration of the `parse_tokens` while-loop for the token at index
`i`, given the following token (the lookahead the loop may consume) when
one exists.  Returns the updated parameter map and whether the lookahead
was consumed as this flag's value (the Rust
`value.is_some() && !token.contains('=')` condition).  The inner `none`
branch of the `=`-split is dead code: `strContains token '='` guarantees
the split succeeds, matching Rust's `splitn(2, '=')` always having a
second part there. -/
def parse_token_step (provider_id : String) (schema : ParameterSchema)
    (token : String) (lookahead : Option String) (i : Nat)
    (parameters : List (String × SpecValue)) :
    List (String × SpecValue) × Bool :=
  match parse_prefixed_map_token token schema with
  | some (param_key, map_key, map_value) =>
    (insert_map_entry parameters param_key map_key map_value, false)
  | none =>
  match parse_prefixed_string_token token schema with
  | some (param_key, value) =>
    (btree_insert param_key (.string value) parameters, false)
  | none =>
  if i = 0 ∧ ¬ strStartsWith token "-" then (parameters, false)
  else if strStartsWith token "-" then
    if strContains token '=' then
      match splitOnceEqChars token.data with
      | some (fn, fv) =>
        (apply_flag provider_id schema parameters ⟨fn⟩ (some ⟨fv⟩), false)
      | none => (parameters, false)
    else
      match lookahead with
      | some next =>
        if ¬ strStartsWith next "-" then
          (apply_flag provider_id schema parameters token (some next), true)
        else (apply_flag provider_id schema parameters token none, false)
      | none => (apply_flag provider_id schema parameters token none, false)
  else (parameters, false)

/-- The token loop of `CommandParser::parse_tokens`, recursing over the
remaining tokens with the running index `i` (`i = 0` identifies the
command-name position) and the accumulating parameter map.  The Rust loop
never constructs a `ParseError`; the `Except` wrapping is applied by
`parse_tokens` below exactly as in the source signature. -/
def parse_tokens_loop (provider_id : String) (schema : ParameterSchema) :
    List String → Nat → List (String × SpecValue) → List (String × SpecValue)
  | [], _, parameters => parameters
  | [token], i, parameters =>
    (parse_token_step provider_id schema token none i parameters).1
  | token :: next :: rest2, i, parameters =>
    let r := parse_token_step provider_id schema token (some next) i parameters
    if r.2 then parse_tokens_loop provider_id schema rest2 (i + 2) r.1
    else parse_tokens_loop provider_id schema (next :: rest2) (i + 1) r.1

/-- Mirror of `CommandParser::parse_tokens`. -/
def parse_tokens (provider_id : String) (schema : ParameterSchema) (tokens : List String) :
    Except ParseError (List (String × SpecValue)) :=
  .ok (parse_tokens_loop provider_id schema tokens 0 [])

/-- Character loop of `command_parser.rs::tokenize`: `acc` holds the
finished tokens, `cur` the token being built, `inQ` the quoting mode. -/
def tokenize_loop : List (List Char) → List Char → Bool → List Char → List (List Char)
  | acc, cur, _, [] => if cur = [] then acc else acc ++ [cur]
  | acc, cur, inQ, c :: cs =>
    if c = '"' then tokenize_loop acc cur (!inQ) cs
    else if (c = ' ' ∨ c = '\t') ∧ ¬ inQ then
      if cur = [] then tokenize_loop acc [] inQ cs
      else tokenize_loop (acc ++ [cur]) [] inQ cs
    else tokenize_loop acc (cur ++ [c]) inQ cs

/-- Mirror of `command_parser.rs::tokenize`. -/
def tokenize (command : String) : List String :=
  (tokenize_loop [] [] false command.data).map (fun cs => ⟨cs⟩)

/-- Mirror of `CommandParser::parse_command`: tokenize, parse, and wrap
into a fresh `PublishSpec` carrying the parser's provider id. -/
def parse_command (provider_id command project_path : String) (schema : ParameterSchema) :
    Except ParseError PublishSpec :=
  (parse_tokens provider_id schema (tokenize command)).map fun parameters =>
    { version := SPEC_VERSION
      provider_id := provider_id
      project_path := project_path
      parameters := parameters }

/-! ### Plan, compile errors, registry (`plan.rs`, `compiler.rs`, `provider/registry.rs`) -/

/-- Mirror of `serde_json::Value`; `obj` is the (sorted) `serde_json::Map`. -/
inductive Json where
  | null
  | bool (b : Bool)
  | num (n : F64)
  | str (s : String)
  | arr (xs : List Json)
  | obj (m : List (String × Json))

/-- Mirror of `plan.rs::PLAN_VERSION`. -/
def PLAN_VERSION : Nat := 1

/-- Mirror of `plan.rs::PlanStep`. -/
structure PlanStep where
  id : String
  title : String
  kind : String
  payload : List (String × Json)

/-- Mirror of `plan.rs::ExecutionPlan`. -/
structure ExecutionPlan where
  version : Nat
  spec : PublishSpec
  steps : List PlanStep

/-- Mirror of `compiler.rs::CompileError`. -/
inductive CompileError where
  | unsupportedSpecVersion (v : Nat)
  | unsupportedProvider (id : String)
  | renderError (msg : String)

/-- Rust `Display` text of a non-finite `f64` in this representation. -/
def f64NonFinite (n : F64) : Bool :=
  n.repr = "NaN" ∨ n.repr = "inf" ∨ n.repr = "-inf"

/-- Mirror of `registry.rs::spec_value_to_json`.
`serde_json::Number::from_f64` yields `None` exactly on non-finite
values, which `unwrap_or` turns into `Null`. -/
def spec_value_to_json : SpecValue → Json
  | .null => .null
  | .bool b => .bool b
  | .number n => if f64NonFinite n then .null else .num n
  | .string s => .str s
  | .list xs => .arr (xs.attach.map (fun x => spec_value_to_json x.1))
  | .map m => .obj (m.attach.map (fun kv => (kv.1.1, spec_value_to_json kv.1.2)))
decreasing_by
  · have := List.sizeOf_lt_of_mem x.2
    simp only [SpecValue.list.sizeOf_spec]
    omega
  · have h1 := List.sizeOf_lt_of_mem kv.2
    have h2 : sizeOf kv.1.2 < sizeOf kv.1 := by
      obtain ⟨⟨a, b⟩, hmem⟩ := kv
      simp
    simp only [SpecValue.map.sizeOf_spec]
    omega

/-- Mirror of `registry.rs::compile_single_step`: version gate, then a
single `process` step whose payload records the project path and the
parameter map as JSON. -/
def compile_single_step (spec : PublishSpec) (step_id title : String) :
    Except CompileError ExecutionPlan :=
  if spec.version ≠ SPEC_VERSION then
    .error (.unsupportedSpecVersion spec.version)
  else
    let payload :=
      btree_insert "parameters" (spec_value_to_json (.map spec.parameters))
        (btree_insert "project_path" (.str spec.project_path) [])
    .ok { version := PLAN_VERSION
          spec := spec
          steps := [{ id := step_id, title := title, kind := "process", payload := payload }] }

/-- The fixed provider ids of `ProviderRegistry::new`, in registration
order. -/
def registry_provider_ids : List String := ["dotnet", "cargo", "go", "java"]

/-- Mirror of `ProviderRegistry::get`: linear scan of the manifests. -/
def registry_get (id : String) : Except CompileError String :=
  match registry_provider_ids.find? (fun pid => pid = id) with
  | some pid => .ok pid
  | none => .error (.unsupportedProvider id)

/-- The `compile` method of the matched provider
(`DotnetProvider`/`CargoProvider`/`GoProvider`/`JavaProvider`): each is a
fixed `compile_single_step` call with that provider's step id and title. -/
def provider_compile (pid : String) (spec : PublishSpec) : Except CompileError ExecutionPlan :=
  if pid = "dotnet" then compile_single_step spec "dotnet.publish" "dotnet publish"
  else if pid = "cargo" then compile_single_step spec "cargo.build" "cargo build"
  else if pid = "go" then compile_single_step spec "go.build" "go build"
  else compile_single_step spec "gradle.build" "./gradlew build"

/-- Mirror of `compiler.rs::compile`: look the provider up, then compile. -/
def compile (spec : PublishSpec) : Except CompileError ExecutionPlan :=
  match registry_get spec.provider_id with
  | .error e => .error e
  | .ok pid => provider_compile pid spec

/-! ### Structured errors (`errors.rs`) -/

/-- Mirror of `errors.rs::ErrorKind`. -/
inductive ErrorKind where
  | unknown
  | unsupportedProvider
  | unsupportedSpecVersion
  | renderError
deriving DecidableEq

/-- Mirror of `errors.rs::AppError`. -/
structure AppError where
  kind : ErrorKind
  message : String
  details : Option String := none
  code : Option String := none

/-- Mirror of `AppError::unknown`. -/
def AppError.unknown (message : String) : AppError :=
  { kind := .unknown, message := message }

/-- Mirror of `AppError::unknown_with_code`. -/
def AppError.unknown_with_code (message code : String) : AppError :=
  { kind := .unknown, message := message, code := some code }

/-- Rust `Debug` rendering of the `SpecValue` carried by a render error
(the embedding stores the value itself where Rust stores the formatted
text; this reconstructs the text when an error is converted to a
message).  String escaping inside `{:?}` is not reproduced. -/
def specValueDebug : SpecValue → String
  | .null => "Null"
  | .bool b => "Bool(" ++ boolText b ++ ")"
  | .number n => "Number(" ++ n.repr ++ ")"
  | .string s => "String(\"" ++ s ++ "\")"
  | .list xs =>
    "List([" ++ String.intercalate ", " (xs.attach.map (fun x => specValueDebug x.1)) ++ "])"
  | .map m =>
    "Map(\x7b" ++
      String.intercalate ", "
        (m.attach.map (fun kv => "\"" ++ kv.1.1 ++ "\": " ++ specValueDebug kv.1.2)) ++
    "\x7d)"
decreasing_by
  · have := List.sizeOf_lt_of_mem x.2
    simp only [SpecValue.list.sizeOf_spec]
    omega
  · have h1 := List.sizeOf_lt_of_mem kv.2
    have h2 : sizeOf kv.1.2 < sizeOf kv.1 := by
      obtain ⟨⟨a, b⟩, hmem⟩ := kv
      simp
    simp only [SpecValue.map.sizeOf_spec]
    omega

/-- The `thiserror` `Display` text of `parameter.rs::RenderError`. -/
def renderErrorMessage : RenderError → String
  | .unknownParameter name => "unknown parameter: " ++ name
  | .invalidType parameter expected =>
    "invalid type for parameter '" ++ parameter ++ "': expected '" ++ expected ++ "'"
  | .invalidArrayTypeItem parameter item =>
    "invalid array item for parameter '" ++ parameter ++ "': " ++ specValueDebug item
  | .missingPrefix parameter => "missing prefix for map parameter '" ++ parameter ++ "'"
  | .invalidMapValue parameter key value =>
    "invalid map value for '" ++ parameter ++ "' key '" ++ key ++ "': " ++ specValueDebug value

/-- Mirror of `impl From<RenderError> for CompileError`. -/
def compileErrorOfRender (e : RenderError) : CompileError :=
  .renderError (renderErrorMessage e)

/-- Mirror of `impl From<CompileError> for AppError`. -/
def appErrorOfCompile : CompileError → AppError
  | .unsupportedSpecVersion v =>
    { kind := .unsupportedSpecVersion
      message := "unsupported spec version: " ++ toString v
      code := some "unsupported_spec_version" }
  | .unsupportedProvider p =>
    { kind := .unsupportedProvider
      message := "unsupported provider: " ++ p
      code := some "unsupported_provider" }
  | .renderError msg =>
    { kind := .renderError
      message := "parameter render error: " ++ msg
      details := some msg
      code := some "render_error" }

/-! ### Execution engine (`commands.rs`) -/

/-- Character loop of Rust `str::split_whitespace` (ASCII whitespace; the
tokens the pipeline feeds it contain no exotic Unicode whitespace):
`acc` holds finished words, `cur` the word being built. -/
def splitWsLoop (acc : List (List Char)) (cur : List Char) : List Char → List (List Char)
  | [] => if cur = [] then acc else acc ++ [cur]
  | c :: cs =>
    if isWs c then
      if cur = [] then splitWsLoop acc [] cs
      else splitWsLoop (acc ++ [cur]) [] cs
    else splitWsLoop acc (cur ++ [c]) cs

/-- Rust `str::split_whitespace` lifted to strings. -/
def split_whitespace (s : String) : List String :=
  (splitWsLoop [] [] s.data).map (fun cs => ⟨cs⟩)

/-- Mirror of `commands.rs::PublishResult`. -/
structure PublishResult where
  provider_id : String
  success : Bool
  cancelled : Bool
  output : String
  error : Option String
  output_dir : String
  file_count : Nat

/-- Mirror of `commands.rs::RunningExecution`: the child handle is an
opaque process identity (Rust holds `Arc<Mutex<Child>>`). -/
structure RunningExecution where
  session_id : String
  child : Nat
  cancel_requested : Bool

/-- The observed Rust `std::process::ExitStatus` of the finished child. -/
structure ExitStatus where
  code : Option Int

/-- Mirror of `ExitStatus::success`: the exit code is zero. -/
def ExitStatus.success (s : ExitStatus) : Bool := s.code = some 0

/-- Rust `format!("{:?}", status.code())` for an `Option<i32>`. -/
def optionIntDebug : Option Int → String
  | some n => "Some(" ++ toString n ++ ")"
  | none => "None"

/-- The terminal fields of a publish run derived in
`execute_publish_spec` (commands.rs lines 846–860). -/
structure PublishOutcome where
  success : Bool
  cancelled : Bool
  error : Option String

/-- Mirror of the outcome classification at the end of
`execute_publish_spec`: `cancelled` is the cancellation flag as loaded
after `wait()` returned, `success` demands a zero exit status and an
un-set flag, and the error text prefers the cancellation message. -/
def classify_publish_termination (status : ExitStatus) (cancel_requested : Bool) :
    PublishOutcome :=
  let cancelled := cancel_requested
  let success := status.success && !cancelled
  let error : Option String :=
    if cancelled then some "发布已取消"
    else if success then none
    else some ("发布失败，退出代码: " ++ optionIntDebug status.code)
  { success := success, cancelled := cancelled, error := error }

/-- Assembly of the terminal `PublishResult` from the classified outcome
(commands.rs lines 864–877); `output_dir` and the on-disk file count are
filesystem observations passed in as parameters. -/
def build_publish_result (provider_id : String) (o : PublishOutcome) (output_text : String)
    (output_dir : String) (files_in_output_dir : Nat) : PublishResult :=
  { provider_id := provider_id
    success := o.success
    cancelled := o.cancelled
    output := output_text
    error := o.error
    output_dir := output_dir
    file_count := if o.success then files_in_output_dir else 0 }

/-- Mirror of `commands.rs::resolve_plan_command`: program and skeleton
arguments re-derived from the first step's title. -/
def resolve_plan_command (plan : ExecutionPlan) : Except AppError (String × List String) :=
  match plan.steps with
  | [] => .error (.unknown_with_code "execution plan has no step" "plan_missing_step")
  | first_step :: _ =>
    match split_whitespace first_step.title with
    | [] => .error (.unknown_with_code "execution step title is empty" "plan_invalid_step_title")
    | program :: args => .ok (program, args)

/-- Outcome of the guarded entry phase of `execute_publish_spec`
(commands.rs lines 733–806): the error or the populated slot, the slot
content after the phase, and how many child processes were spawned. -/
structure ExecuteEntryResult where
  outcome : Except AppError Unit
  slot : Option RunningExecution
  spawned : Nat

/-- Mirror of the entry phase of `execute_publish_spec`, up to the point
where the `RunningExecution` slot is populated: the single-flight guard,
compilation, schema-driven rendering, plan-command resolution, argument
assembly, and the spawn.  Effects outside the embedded code are
parameters: `schema_result` stands for the provider's `get_schema()`
(a schema file read), and `spawn_result` for `Command::spawn` (`.ok` a
child handle, `.error` a classified spawn-failure code); working-directory
and gradle-wrapper resolution, which only rewrite the program string from
filesystem state, are folded into `spawn_result`. -/
def execute_publish_spec_entry (slot : Option RunningExecution) (spec : PublishSpec)
    (schema_result : Except RenderError ParameterSchema)
    (spawn_result : Except String Nat) (session_id : String) : ExecuteEntryResult :=
  if slot.isSome then
    { outcome := .error (.unknown_with_code
        "another publish execution is already running" "publish_already_running")
      slot := slot
      spawned := 0 }
  else
    match compile spec with
    | .error e => { outcome := .error (appErrorOfCompile e), slot := slot, spawned := 0 }
    | .ok plan =>
      match registry_get spec.provider_id with
      | .error e => { outcome := .error (appErrorOfCompile e), slot := slot, spawned := 0 }
      | .ok _ =>
        match schema_result with
        | .error e =>
          { outcome := .error (appErrorOfCompile (compileErrorOfRender e))
            slot := slot
            spawned := 0 }
        | .ok schema =>
          match render schema spec.parameters with
          | .error e =>
            { outcome := .error (appErrorOfCompile (compileErrorOfRender e))
              slot := slot
              spawned := 0 }
          | .ok rendered =>
            match resolve_plan_command plan with
            | .error e => { outcome := .error e, slot := slot, spawned := 0 }
            | .ok (_, base_args) =>
              let _args := base_args ++
                (if spec.provider_id = "dotnet" then [spec.project_path] else []) ++
                rendered.args
              match spawn_result with
              | .error code =>
                { outcome := .error (.unknown_with_code "failed to spawn publish process" code)
                  slot := slot
                  spawned := 1 }
              | .ok child =>
                { outcome := .ok ()
                  slot := some { session_id := session_id, child := child,
                                 cancel_requested := false }
                  spawned := 1 }

/-- Mirror of `commands.rs::clear_running_execution`: the slot is cleared
only when it still holds the session that just finished. -/
def clear_running_execution (slot : Option RunningExecution) (session_id : String) :
    Option RunningExecution :=
  match slot with
  | some running => if running.session_id = session_id then none else slot
  | none => none

/-! ### Fix-command allow-list (`commands.rs::validate_and_parse_fix_command`) -/

/-- Mirror of `commands.rs::validate_and_parse_fix_command`: the hard
security boundary in front of auxiliary "fix" commands. -/
def validate_and_parse_fix_command (command_str : String) :
    Except AppError (String × List String) :=
  let trimmed := strTrim command_str
  if trimmed = "" then .error (.unknown "command is empty")
  else if strContains trimmed '\n' ∨ strContains trimmed '\r' ∨ strContains trimmed '|' ∨
      strContains trimmed '&' ∨ strContains trimmed ';' ∨ strContains trimmed '>' ∨
      strContains trimmed '<' then
    .error (.unknown "unsupported command: contains unsafe shell characters")
  else if strContains trimmed '"' ∨ strContains trimmed '\'' then
    .error (.unknown "unsupported command: quoting is not allowed")
  else
    match split_whitespace trimmed with
    | [] => .error (.unknown "command is empty")
    | program :: args =>
      if program = "sudo" then
        .error (.unknown "unsupported command: sudo is not allowed")
      else if program = "brew" then
        if args.head? = some "install" then .ok (program, args)
        else .error (.unknown "unsupported brew command (only `brew install ...` is allowed)")
      else if program = "winget" then
        if args.head? = some "install" then .ok (program, args)
        else .error (.unknown "unsupported winget command (only `winget install ...` is allowed)")
      else if program = "rustup" then
        if args.head? = some "update" then .ok (program, args)
        else .error (.unknown "unsupported rustup command (only `rustup update` is allowed)")
      else
        .error (.unknown ("unsupported command: `" ++ program ++ "` is not allowed"))

/-! ### Statement helpers and concrete fixtures -/

/-- The rendered text of a `SpecValue` at `Array` element position
(`render_array` accepts exactly `String` and `Number` elements). -/
def arrayItemText : SpecValue → Option String
  | .string s => some s
  | .number n => some n.repr
  | _ => none

/-- The rendered text of a `SpecValue` at `Map` entry-value position
(`render_map` accepts exactly `String`, `Number` and `Bool` values). -/
def mapValueText : SpecValue → Option String
  | .string s => some s
  | .number n => some n.repr
  | .bool b => some (boolText b)
  | _ => none

/-- Joining an argument vector into a command string with single spaces,
as the round-trip claim prescribes. -/
def join_tokens : List String → String
  | [] => ""
  | [t] => t
  | t :: ts => t ++ " " ++ join_tokens ts

/-- A token is benign for tokenization when it is nonempty and free of
space, tab and double-quote characters, so that `tokenize` recovers it
verbatim from a space-joined command line. -/
def benignToken (s : String) : Bool :=
  s.data ≠ [] && s.data.all (fun c => ¬ (c = ' ' ∨ c = '\t' ∨ c = '"'))

/-- The dotnet schema of the repository's own parser tests
(`command_parser.rs::tests::dotnet_schema`). -/
def dotnet_test_schema : ParameterSchema :=
  ⟨[("configuration", ⟨.string, "-c", none, none, none⟩),
    ("runtime", ⟨.string, "-r", none, none, none⟩),
    ("self_contained", ⟨.boolean, "--self-contained", none, none, none⟩)]⟩

/-- A cargo schema fragment with the multi-valued `features` parameter
(flag `--features`, `Array`-typed), as in the repository's renderer
tests. -/
def cargo_features_schema : ParameterSchema :=
  ⟨[("features", ⟨.array, "--features", none, none, none⟩)]⟩

/-- The java schema of the repository's own parser tests
(`command_parser.rs::tests::java_schema`). -/
def java_test_schema : ParameterSchema :=
  ⟨[("offline", ⟨.boolean, "--offline", none, none, none⟩),
    ("properties", ⟨.map, "", none, some "-D", none⟩)]⟩

/-- The argument vector the renderer produces for a round-trip-conforming
parameter map: the schema flag alone for a Boolean `true`, the flag
followed by the value for a `String`. -/
def rt_tokens (S : ParameterSchema) (P : List (String × SpecValue)) : List String :=
  P.flatMap fun kv =>
    match btree_get kv.1 S.parameters, kv.2 with
    | some def_, .bool true => [def_.flag]
    | some def_, .string s => [def_.flag, s]
    | _, _ => []

/-- A parameter the round trip preserves: its key is in the schema, the
schema flag maps back to the same key through the provider's flag table,
the flag is a benign `-`-leading token without `=`, and the value is
either `Bool(true)` under a `Boolean` definition or a benign non-flag
`String` under a `String` definition. -/
def rt_param_ok (pid : String) (S : ParameterSchema) (kv : String × SpecValue) : Prop :=
  ∃ def_, btree_get kv.1 S.parameters = some def_ ∧
    map_flag_to_param pid def_.flag = some kv.1 ∧
    benignToken def_.flag = true ∧ strStartsWith def_.flag "-" = true ∧
    strContains def_.flag '=' = false ∧
    ((def_.param_type = .boolean ∧ kv.2 = .bool true) ∨
     (def_.param_type = .string ∧ ∃ s, kv.2 = .string s ∧ benignToken s = true ∧
       strStartsWith s "-" = false))

/-! ## Theorems -/

/-- C10: for every schema and parameter map, whenever `render` succeeds
the returned `RenderedCommand`'s `env` vector is empty — rendering never
produces environment-variable pairs. -/
theorem c10_render_env_empty (schema : ParameterSchema) (params : List (String × SpecValue))
    (rc : RenderedCommand) (h : render schema params = .ok rc) : rc.env = [] := by
  unfold render at h
  cases hrp : render_params schema params with
  | error e => rw [hrp] at h; simp [Except.map] at h
  | ok args =>
    rw [hrp] at h
    simp only [Except.map] at h
    cases h
    rfl

/-- Witness for C10 at a concrete render. -/
theorem c10_render_env_empty_witness : (RenderedCommand.mk ["--features", "a"] []).env = [] :=
  c10_render_env_empty cargo_features_schema [("features", .list [.string "a"])]
    ⟨["--features", "a"], []⟩ rfl

/-- C2: whenever the cancellation flag is set when the exit status is
examined, the terminal outcome has `cancelled = true` and
`success = false` regardless of the raw exit code; `success` holds
exactly when the exit status is zero and the flag is unset. -/
theorem c2_cancellation_precedence (status : ExitStatus) (flag : Bool) :
    (flag = true →
      (classify_publish_termination status flag).cancelled = true ∧
      (classify_publish_termination status flag).success = false) ∧
    ((classify_publish_termination status flag).success = true ↔
      status.code = some 0 ∧ flag = false) := by
  cases flag <;>
    simp [classify_publish_termination, ExitStatus.success]

/-- Witness for C2: a non-zero exit with the flag set is reported
cancelled and unsuccessful. -/
theorem c2_cancellation_precedence_witness :
    (classify_publish_termination ⟨some 3⟩ true).cancelled = true ∧
    (classify_publish_termination ⟨some 3⟩ true).success = false :=
  (c2_cancellation_precedence ⟨some 3⟩ true).1 rfl

/-- C3: when the `RunningExecution` slot is already occupied, the execute
entry fails immediately with the `publish_already_running` error, the
slot keeps its existing entry, and no child process is spawned. -/
theorem c3_single_flight (slot : Option RunningExecution) (spec : PublishSpec)
    (schema_result : Except RenderError ParameterSchema) (spawn_result : Except String Nat)
    (session_id : String) (r : RunningExecution) (h : slot = some r) :
    execute_publish_spec_entry slot spec schema_result spawn_result session_id =
      { outcome := .error (AppError.unknown_with_code
          "another publish execution is already running" "publish_already_running")
        slot := slot
        spawned := 0 } := by
  subst h
  simp [execute_publish_spec_entry]

/-- Witness for C3 at a concrete occupied slot. -/
theorem c3_single_flight_witness :
    execute_publish_spec_entry (some ⟨"s1", 7, false⟩) ⟨1, "cargo", "p", []⟩
        (.ok ⟨[]⟩) (.ok 3) "s2" =
      { outcome := .error (AppError.unknown_with_code
          "another publish execution is already running" "publish_already_running")
        slot := some ⟨"s1", 7, false⟩
        spawned := 0 } :=
  c3_single_flight _ _ _ _ _ ⟨"s1", 7, false⟩ rfl

/-- Helper: `render_map_entries` on an all-scalar inner map produces one
`"{prefix}{key}={value}"` token per entry, in entry order. -/
theorem render_map_entries_all_scalar (pre key : String) (m : List (String × SpecValue))
    (h : ∀ kv ∈ m, (mapValueText kv.2).isSome) :
    render_map_entries pre key m =
      .ok (m.map fun kv => pre ++ kv.1 ++ "=" ++ (mapValueText kv.2).getD "") := by
  induction m with
  | nil => rfl
  | cons kv rest ih =>
    obtain ⟨k, v⟩ := kv
    have hv := h (k, v) (List.mem_cons_self _ _)
    have hrest := ih (fun kv hkv => h kv (List.mem_cons_of_mem _ hkv))
    cases v <;> simp_all [render_map_entries, mapValueText, Except.map]

/-- C7: a `Map`-typed definition without a prefix always fails with
`MissingPrefix`, no matter the value (the error is raised before the
value is inspected); with a prefix, each inner entry of a `Map` value
renders as the single token `"{prefix}{innerKey}={innerValue}"`, and the
outcome is independent of the definition's outer flag. -/
theorem c7_map_rendering (def_ : ParameterDefinition) (key : String) (value : SpecValue) :
    (def_.prefixStr = none → render_map def_ key value = .error (.missingPrefix key)) ∧
    (∀ pre m, def_.prefixStr = some pre → value = .map m →
      (∀ kv ∈ m, (mapValueText kv.2).isSome) →
      render_map def_ key value =
        .ok (m.map fun kv => pre ++ kv.1 ++ "=" ++ (mapValueText kv.2).getD "")) ∧
    (∀ flag2, render_map { def_ with flag := flag2 } key value = render_map def_ key value) := by
  refine ⟨fun h => ?_, fun pre m h1 h2 h3 => ?_, fun flag2 => rfl⟩
  · simp [render_map, h]
  · subst h2
    simp [render_map, h1]
    exact render_map_entries_all_scalar pre key m h3

/-- Witness for C7: the missing-prefix error and a concrete two-entry
map rendered with prefix `--define=`, ignoring the outer flag. -/
theorem c7_map_rendering_witness :
    render_map ⟨.map, "--ignored", none, none, none⟩ "defines"
        (.map [("DEBUG", .bool true)]) = .error (.missingPrefix "defines") ∧
    render_map ⟨.map, "", none, some "--define=", none⟩ "defines"
        (.map [("DEBUG", .bool true), ("VERSION", .string "1.0")]) =
      .ok ["--define=DEBUG=true", "--define=VERSION=1.0"] := by
  constructor
  · exact (c7_map_rendering ⟨.map, "--ignored", none, none, none⟩ "defines"
      (.map [("DEBUG", .bool true)])).1 rfl
  · exact (c7_map_rendering ⟨.map, "", none, some "--define=", none⟩ "defines"
      (.map [("DEBUG", .bool true), ("VERSION", .string "1.0")])).2.1 "--define="
      [("DEBUG", .bool true), ("VERSION", .string "1.0")] rfl rfl
      (by intro kv hkv; fin_cases hkv <;> rfl)

/-- C6 counterexample: the claim says any non-`List` value for an
`Array`-typed parameter fails with `InvalidType`, but the code accepts
the non-`List` value `Null` and renders nothing. -/
theorem c6_array_rendering_counterexample :
    render cargo_features_schema [("features", .null)] = .ok ⟨[], []⟩ := rfl

/-- Helper: `render_array_items` on all-scalar elements yields one
`[flag, element]` pair per element, flag repeated. -/
theorem render_array_items_all_scalar (flag key : String) (items : List SpecValue)
    (h : ∀ x ∈ items, (arrayItemText x).isSome) :
    render_array_items flag key items =
      .ok (items.flatMap fun x => [flag, (arrayItemText x).getD ""]) := by
  induction items with
  | nil => rfl
  | cons x rest ih =>
    have hx := h x (List.mem_cons_self _ _)
    have hrest := ih (fun y hy => h y (List.mem_cons_of_mem _ hy))
    cases x <;> simp_all [render_array_items, arrayItemText, Except.map]

/-- Helper: `render_array_items` fails with `InvalidArrayTypeItem` as
soon as the element list contains a non-scalar element. -/
theorem render_array_items_non_scalar (flag key : String) :
    ∀ items : List SpecValue, (∃ x ∈ items, (arrayItemText x).isNone) →
    ∃ p i, render_array_items flag key items = .error (.invalidArrayTypeItem p i) := by
  intro items
  induction items with
  | nil =>
    rintro ⟨x, hx, _⟩
    cases hx
  | cons y rest ih =>
    rintro ⟨x, hx, hbad⟩
    rcases List.mem_cons.mp hx with h | h
    · subst h
      cases x with
      | string s => simp [arrayItemText] at hbad
      | number n => simp [arrayItemText] at hbad
      | null => exact ⟨key, .null, rfl⟩
      | bool b => exact ⟨key, .bool b, rfl⟩
      | list xs => exact ⟨key, .list xs, rfl⟩
      | map m => exact ⟨key, .map m, rfl⟩
    · cases y with
      | string s =>
        obtain ⟨p, i, hpi⟩ := ih ⟨x, h, hbad⟩
        exact ⟨p, i, by simp [render_array_items, hpi, Except.map]⟩
      | number n =>
        obtain ⟨p, i, hpi⟩ := ih ⟨x, h, hbad⟩
        exact ⟨p, i, by simp [render_array_items, hpi, Except.map]⟩
      | null => exact ⟨key, .null, rfl⟩
      | bool b => exact ⟨key, .bool b, rfl⟩
      | list xs => exact ⟨key, .list xs, rfl⟩
      | map m => exact ⟨key, .map m, rfl⟩

/-- C6 amended: an `Array`-typed parameter accepts a `List` or `Null`
value.  `Null` renders nothing; each `String`/`Number` element of a
`List` produces its own `[flag, element]` pair with the flag repeated per
element (not comma-joined); an element that is not a `String` or `Number`
fails with `InvalidArrayTypeItem`; any value that is neither a `List` nor
`Null` fails with `InvalidType`. -/
theorem c6_array_rendering_amended (def_ : ParameterDefinition) (key : String)
    (value : SpecValue) :
    (∀ items, value = .list items → (∀ x ∈ items, (arrayItemText x).isSome) →
      render_array def_ key value =
        .ok (items.flatMap fun x => [def_.flag, (arrayItemText x).getD ""])) ∧
    (value = .null → render_array def_ key value = .ok []) ∧
    ((∀ items, value ≠ .list items) → value ≠ .null →
      render_array def_ key value = .error (.invalidType key "array")) ∧
    (∀ items x, value = .list items → x ∈ items → (arrayItemText x).isNone →
      ∃ p i, render_array def_ key value = .error (.invalidArrayTypeItem p i)) := by
  refine ⟨fun items h1 h2 => ?_, fun h => ?_, fun h1 h2 => ?_, fun items x h1 h2 h3 => ?_⟩
  · subst h1
    exact render_array_items_all_scalar def_.flag key items h2
  · subst h
    rfl
  · cases value <;> simp_all [render_array]
  · subst h1
    exact render_array_items_non_scalar def_.flag key items ⟨x, h2, h3⟩

/-- Witness for C6 amended: the repeated-flag expansion of
`["a", "b"]` under flag `--features`, plus the `InvalidType` failure on a
string value and the `InvalidArrayTypeItem` failure on a list element. -/
theorem c6_array_rendering_amended_witness :
    render_array ⟨.array, "--features", none, none, none⟩ "features"
        (.list [.string "a", .string "b"]) =
      .ok ["--features", "a", "--features", "b"] ∧
    render_array ⟨.array, "--features", none, none, none⟩ "features" (.string "a") =
      .error (.invalidType "features" "array") ∧
    (∃ p i, render_array ⟨.array, "--features", none, none, none⟩ "features"
        (.list [.bool true]) = .error (.invalidArrayTypeItem p i)) := by
  refine ⟨?_, ?_, ?_⟩
  · exact (c6_array_rendering_amended ⟨.array, "--features", none, none, none⟩ "features"
      (.list [.string "a", .string "b"])).1 [.string "a", .string "b"] rfl
      (by intro x hx; fin_cases hx <;> rfl)
  · exact (c6_array_rendering_amended ⟨.array, "--features", none, none, none⟩ "features"
      (.string "a")).2.2.1 (fun items h => by cases h) (by intro h; cases h)
  · exact (c6_array_rendering_amended ⟨.array, "--features", none, none, none⟩ "features"
      (.list [.bool true])).2.2.2 [.bool true] (.bool true) rfl (List.mem_cons_self _ _) rfl

/-- Helper: dropping a whitespace prefix keeps every non-whitespace
character. -/
theorem mem_dropWhile_isWs {c : Char} (hc : isWs c = false) :
    ∀ {l : List Char}, c ∈ l → c ∈ l.dropWhile isWs := by
  intro l h
  induction l with
  | nil => cases h
  | cons a as ih =>
    rw [List.dropWhile_cons]
    by_cases ha : isWs a
    · rcases List.mem_cons.mp h with h1 | h1
      · subst h1
        rw [hc] at ha
        cases ha
      · simp only [ha, if_true]
        exact ih h1
    · simp only [ha, if_false]
      exact h

/-- Helper: trimming preserves every non-whitespace character of the
command string. -/
theorem mem_strTrim {s : String} {c : Char} (h : c ∈ s.data) (hc : isWs c = false) :
    c ∈ (strTrim s).data := by
  show c ∈ ((s.data.dropWhile isWs).reverse.dropWhile isWs).reverse
  rw [List.mem_reverse]
  exact mem_dropWhile_isWs hc (by
    rw [List.mem_reverse]
    exact mem_dropWhile_isWs hc h)

/-- C4: a fix command validates successfully only as `brew install …`,
`winget install …` or `rustup update …`; any command containing one of
the shell metacharacters `| & ; > <` or a quote character is rejected,
and the program `sudo` is rejected. -/
theorem c4_fix_command_allow_list (s : String) :
    (∀ p args, validate_and_parse_fix_command s = .ok (p, args) →
      (p = "brew" ∧ args.head? = some "install") ∨
      (p = "winget" ∧ args.head? = some "install") ∨
      (p = "rustup" ∧ args.head? = some "update")) ∧
    (∀ c, c ∈ ['|', '&', ';', '>', '<', '"', '\''] → strContains s c = true →
      ∃ e, validate_and_parse_fix_command s = .error e) ∧
    (∀ args, split_whitespace (strTrim s) = "sudo" :: args →
      ∃ e, validate_and_parse_fix_command s = .error e) := by
  refine ⟨fun p args h => ?_, fun c hc hcont => ?_, fun args hsudo => ?_⟩
  · unfold validate_and_parse_fix_command at h
    dsimp only at h
    split_ifs at h
    split at h
    · cases h
    · split_ifs at h <;> cases h <;> simp_all
  · have hcw : isWs c = false := by fin_cases hc <;> rfl
    have hmem : c ∈ (strTrim s).data := mem_strTrim (by simpa [strContains] using hcont) hcw
    unfold validate_and_parse_fix_command
    by_cases h1 : strTrim s = ""
    · simp [h1]
    · by_cases h2 : strContains (strTrim s) '\n' ∨ strContains (strTrim s) '\r' ∨
          strContains (strTrim s) '|' ∨ strContains (strTrim s) '&' ∨
          strContains (strTrim s) ';' ∨ strContains (strTrim s) '>' ∨
          strContains (strTrim s) '<'
      · simp [h1, h2]
      · have h3 : strContains (strTrim s) '"' ∨ strContains (strTrim s) '\'' := by
          fin_cases hc <;> simp_all [strContains]
        simp [h1, h2, h3]
  · unfold validate_and_parse_fix_command
    by_cases h1 : strTrim s = ""
    · simp [h1]
    · by_cases h2 : strContains (strTrim s) '\n' ∨ strContains (strTrim s) '\r' ∨
          strContains (strTrim s) '|' ∨ strContains (strTrim s) '&' ∨
          strContains (strTrim s) ';' ∨ strContains (strTrim s) '>' ∨
          strContains (strTrim s) '<'
      · simp [h1, h2]
      · by_cases h3 : strContains (strTrim s) '"' ∨ strContains (strTrim s) '\''
        · simp [h1, h2, h3]
        · simp [h1, h2, h3, hsudo]

/-- Witness for C4: the allow-list shape at an accepted `brew install`,
the metacharacter rejection at a piped command, and the `sudo`
rejection. -/
theorem c4_fix_command_allow_list_witness :
    (("brew" = "brew" ∧ (["install", "wget"] : List String).head? = some "install") ∨
      ("brew" = "winget" ∧ (["install", "wget"] : List String).head? = some "install") ∨
      ("brew" = "rustup" ∧ (["install", "wget"] : List String).head? = some "update")) ∧
    (∃ e, validate_and_parse_fix_command "brew install a | cat" = .error e) ∧
    (∃ e, validate_and_parse_fix_command "sudo rustup update" = .error e) := by
  refine ⟨?_, ?_, ?_⟩
  · exact (c4_fix_command_allow_list "brew install wget").1 "brew" ["install", "wget"] rfl
  · exact (c4_fix_command_allow_list "brew install a | cat").2.1 '|' (by simp) rfl
  · exact (c4_fix_command_allow_list "sudo rustup update").2.2 ["rustup", "update"] rfl

/-- Helper: `compile_single_step` on a spec with the current version
yields the single `process` step unchanged-spec plan. -/
theorem compile_single_step_ok (spec : PublishSpec) (sid t : String)
    (hv : spec.version = SPEC_VERSION) :
    compile_single_step spec sid t =
      .ok { version := PLAN_VERSION
            spec := spec
            steps := [{ id := sid, title := t, kind := "process",
                        payload := btree_insert "parameters"
                          (spec_value_to_json (.map spec.parameters))
                          (btree_insert "project_path" (.str spec.project_path) []) }] } := by
  simp [compile_single_step, hv]

/-- C5: compiling with an unregistered provider id fails with
`UnsupportedProvider(id)`; with a registered provider and a version other
than `SPEC_VERSION` it fails with `UnsupportedSpecVersion`; otherwise it
succeeds with a plan that carries the input spec through unchanged and
holds exactly one step titled with the provider's program plus skeleton
args. -/
theorem c5_compiler_contract (spec : PublishSpec) :
    (spec.provider_id ∉ registry_provider_ids →
      compile spec = .error (.unsupportedProvider spec.provider_id)) ∧
    (spec.provider_id ∈ registry_provider_ids → spec.version ≠ SPEC_VERSION →
      compile spec = .error (.unsupportedSpecVersion spec.version)) ∧
    (spec.provider_id ∈ registry_provider_ids → spec.version = SPEC_VERSION →
      ∃ st, compile spec = .ok { version := PLAN_VERSION, spec := spec, steps := [st] } ∧
        ((spec.provider_id = "dotnet" ∧ st.title = "dotnet publish") ∨
         (spec.provider_id = "cargo" ∧ st.title = "cargo build") ∨
         (spec.provider_id = "go" ∧ st.title = "go build") ∨
         (spec.provider_id = "java" ∧ st.title = "./gradlew build"))) := by
  refine ⟨fun h => ?_, fun h hv => ?_, fun h hv => ?_⟩
  · simp only [registry_provider_ids, List.mem_cons, List.not_mem_nil, or_false] at h
    push_neg at h
    obtain ⟨h1, h2, h3, h4⟩ := h
    simp [compile, registry_get, registry_provider_ids, List.find?,
      Ne.symm h1, Ne.symm h2, Ne.symm h3, Ne.symm h4]
  · rcases (by simpa [registry_provider_ids] using h :
        spec.provider_id = "dotnet" ∨ spec.provider_id = "cargo" ∨
        spec.provider_id = "go" ∨ spec.provider_id = "java") with h1 | h1 | h1 | h1 <;>
      simp [compile, registry_get, registry_provider_ids, List.find?, h1,
        provider_compile, compile_single_step, hv]
  · rcases (by simpa [registry_provider_ids] using h :
        spec.provider_id = "dotnet" ∨ spec.provider_id = "cargo" ∨
        spec.provider_id = "go" ∨ spec.provider_id = "java") with h1 | h1 | h1 | h1
    · refine ⟨⟨"dotnet.publish", "dotnet publish", "process",
          btree_insert "parameters" (spec_value_to_json (.map spec.parameters))
            (btree_insert "project_path" (.str spec.project_path) [])⟩,
        ?_, Or.inl ⟨h1, rfl⟩⟩
      simp [compile, registry_get, registry_provider_ids, List.find?, h1, provider_compile,
        compile_single_step_ok spec _ _ hv]
    · refine ⟨⟨"cargo.build", "cargo build", "process",
          btree_insert "parameters" (spec_value_to_json (.map spec.parameters))
            (btree_insert "project_path" (.str spec.project_path) [])⟩,
        ?_, Or.inr (Or.inl ⟨h1, rfl⟩)⟩
      simp [compile, registry_get, registry_provider_ids, List.find?, h1, provider_compile,
        compile_single_step_ok spec _ _ hv]
    · refine ⟨⟨"go.build", "go build", "process",
          btree_insert "parameters" (spec_value_to_json (.map spec.parameters))
            (btree_insert "project_path" (.str spec.project_path) [])⟩,
        ?_, Or.inr (Or.inr (Or.inl ⟨h1, rfl⟩))⟩
      simp [compile, registry_get, registry_provider_ids, List.find?, h1, provider_compile,
        compile_single_step_ok spec _ _ hv]
    · refine ⟨⟨"gradle.build", "./gradlew build", "process",
          btree_insert "parameters" (spec_value_to_json (.map spec.parameters))
            (btree_insert "project_path" (.str spec.project_path) [])⟩,
        ?_, Or.inr (Or.inr (Or.inr ⟨h1, rfl⟩))⟩
      simp [compile, registry_get, registry_provider_ids, List.find?, h1, provider_compile,
        compile_single_step_ok spec _ _ hv]

/-- Witness for C5: the cargo provider at the current spec version. -/
theorem c5_compiler_contract_witness :
    ∃ st, compile ⟨1, "cargo", "p", []⟩ =
        .ok { version := PLAN_VERSION, spec := ⟨1, "cargo", "p", []⟩, steps := [st] } ∧
      ((("cargo" : String) = "dotnet" ∧ st.title = "dotnet publish") ∨
       (("cargo" : String) = "cargo" ∧ st.title = "cargo build") ∨
       (("cargo" : String) = "go" ∧ st.title = "go build") ∨
       (("cargo" : String) = "java" ∧ st.title = "./gradlew build")) :=
  (c5_compiler_contract ⟨1, "cargo", "p", []⟩).2.2 (by simp [registry_provider_ids]) rfl

/-- C9: for every input command string, project path and schema,
`parse_command` returns `Ok` with a `PublishSpec` whose version is
`SPEC_VERSION` and whose provider id is the parser's; no `ParseError`
variant is ever produced (the token loop has no error path). -/
theorem c9_parser_totality (provider_id command project_path : String)
    (schema : ParameterSchema) :
    ∃ spec, parse_command provider_id command project_path schema = .ok spec ∧
      spec.version = SPEC_VERSION ∧ spec.provider_id = provider_id ∧
      spec.project_path = project_path :=
  ⟨_, rfl, rfl, rfl, rfl⟩

/-- C8 counterexample: the claim says a malformed map assignment (empty
key / missing `=`) is a parse error, but `"-D=1.2.3"` — whose remainder
after the `-D` prefix is the empty-key assignment `=1.2.3`, and whose
`flag=value` split gives the `=`-less map value `1.2.3` — parses
successfully with the entry silently dropped: the parameter map comes
back empty. -/
theorem c8_parser_permissiveness_counterexample :
    parse_command "java" "./gradlew build -D=1.2.3" "build.gradle" java_test_schema =
      .ok { version := SPEC_VERSION, provider_id := "java", project_path := "build.gradle",
            parameters := [] } := rfl

/-- C8 amended: the parser never fails — unrecognized flags are silently
ignored and malformed map assignments are silently dropped rather than
raised as parse errors.  Concretely, the unknown `--whatever` flag is
skipped while later flags still parse, and the malformed `-D=1.2.3`
yields an empty parameter map. -/
theorem c8_parser_permissiveness_amended :
    (∀ provider_id command project_path : String, ∀ schema : ParameterSchema,
      ∃ spec, parse_command provider_id command project_path schema = .ok spec) ∧
    parse_command "cargo" "cargo build --whatever x --features a" "Cargo.toml"
        cargo_features_schema =
      .ok { version := SPEC_VERSION, provider_id := "cargo", project_path := "Cargo.toml",
            parameters := [("features", .list [.string "a"])] } ∧
    parse_command "java" "./gradlew build -D=1.2.3" "p" java_test_schema =
      .ok { version := SPEC_VERSION, provider_id := "java", project_path := "p",
            parameters := [] } :=
  ⟨fun _ _ _ _ => ⟨_, rfl⟩, rfl, rfl⟩

/-- Helper: a `benignToken` splits into nonemptiness and a per-character
guarantee. -/
theorem benignToken_spec {t : String} (h : benignToken t = true) :
    t.data ≠ [] ∧ ∀ c ∈ t.data, ¬ (c = '"' ∨ c = ' ' ∨ c = '\t') := by
  unfold benignToken at h
  rw [Bool.and_eq_true] at h
  obtain ⟨h1, h2⟩ := h
  refine ⟨by simpa using h1, fun c hc => ?_⟩
  rw [List.all_eq_true] at h2
  have := h2 c hc
  intro hcontra
  rcases hcontra with h3 | h3 | h3 <;> simp [h3] at this

/-- Helper: the tokenizer consumes a quote-and-whitespace-free character
run into the current token unchanged. -/
theorem tokenize_loop_benign_chars (t : List Char)
    (ht : ∀ c ∈ t, ¬ (c = '"' ∨ c = ' ' ∨ c = '\t')) :
    ∀ acc cur rest, tokenize_loop acc cur false (t ++ rest) =
      tokenize_loop acc (cur ++ t) false rest := by
  induction t with
  | nil =>
    intro acc cur rest
    simp
  | cons c t' ih =>
    intro acc cur rest
    have hc := ht c (List.mem_cons_self _ _)
    push_neg at hc
    obtain ⟨hq, hsp, htab⟩ := hc
    show tokenize_loop acc cur false (c :: (t' ++ rest)) = _
    rw [tokenize_loop]
    simp only [hq, hsp, htab, if_false, false_and, or_self, not_false_eq_true,
      Bool.not_false, ite_false, false_or]
    rw [ih (fun d hd => ht d (List.mem_cons_of_mem _ hd)) acc (cur ++ [c]) rest]
    simp [List.append_assoc]

/-- Helper: tokenizing a space-joined list of benign tokens recovers the
tokens, appended to the accumulator. -/
theorem tokenize_loop_join (ts : List String) (h : ∀ t ∈ ts, benignToken t = true) :
    ∀ acc, tokenize_loop acc [] false (join_tokens ts).data = acc ++ ts.map String.data := by
  induction ts with
  | nil =>
    intro acc
    simp [join_tokens, tokenize_loop]
  | cons t ts' ih =>
    cases ts' with
    | nil =>
      intro acc
      obtain ⟨hne, ht⟩ := benignToken_spec (h t (List.mem_cons_self _ _))
      show tokenize_loop acc [] false t.data = acc ++ [t.data]
      have he := tokenize_loop_benign_chars t.data ht acc [] []
      rw [List.append_nil] at he
      rw [he, tokenize_loop]
      simp [hne]
    | cons t2 ts'' =>
      intro acc
      obtain ⟨hne, ht⟩ := benignToken_spec (h t (List.mem_cons_self _ _))
      have hda : ∀ a b : String, (a ++ b).data = a.data ++ b.data := by
        intro a b
        cases a
        cases b
        rfl
      have hjd : (join_tokens (t :: t2 :: ts'')).data =
          t.data ++ (' ' :: (join_tokens (t2 :: ts'')).data) := by
        show (t ++ " " ++ join_tokens (t2 :: ts'')).data = _
        rw [hda, hda]
        simp [List.append_assoc]
      rw [hjd, tokenize_loop_benign_chars t.data ht acc [] _, tokenize_loop]
      simp only [List.nil_append, if_true, if_false, and_true, not_false_eq_true]
      rw [if_neg (by simp), if_pos (by simp), if_neg hne]
      rw [ih (fun u hu => h u (List.mem_cons_of_mem _ hu)) (acc ++ [t.data])]
      simp [List.append_assoc]

/-- Helper: `tokenize` inverts `join_tokens` on benign tokens. -/
theorem tokenize_join_benign (ts : List String) (h : ∀ t ∈ ts, benignToken t = true) :
    tokenize (join_tokens ts) = ts := by
  unfold tokenize
  rw [tokenize_loop_join ts h []]
  have hmk : ((fun cs => (⟨cs⟩ : String)) ∘ String.data) = id := funext fun t => rfl
  simp [List.map_map, hmk]

/-- C1 counterexample: the renderer accepts the two-element `Array`
parameter `features = ["a", "b"]` and renders the flag repeated per
element, but parsing the joined command back through the same schema and
the cargo flag table keeps only the last element (`insert` replaces the
previous `List` on each repeated flag), so the reconstructed spec has a
one-element list where the original had two — not equal even up to
ordering, since the element counts differ. -/
theorem c1_round_trip_counterexample :
    (render cargo_features_schema [("features", .list [.string "a", .string "b"])]).map
        RenderedCommand.args = .ok ["--features", "a", "--features", "b"] ∧
    parse_command "cargo" (join_tokens ["cargo", "build", "--features", "a", "--features", "b"])
        "Cargo.toml" cargo_features_schema =
      .ok { version := SPEC_VERSION, provider_id := "cargo", project_path := "Cargo.toml",
            parameters := [("features", .list [.string "b"])] } ∧
    ([SpecValue.string "b"] : List SpecValue).length ≠
      ([SpecValue.string "a", SpecValue.string "b"] : List SpecValue).length :=
  ⟨rfl, rfl, by simp⟩

/-- Helper: the key order is irreflexive. -/
theorem charsLt_irrefl : ∀ a : List Char, charsLt a a = false := by
  intro a
  induction a with
  | nil => rfl
  | cons c as ih => simp [charsLt, Nat.lt_irrefl, ih]

/-- Helper: the key order is asymmetric. -/
theorem charsLt_asymm : ∀ a b : List Char, charsLt a b = true → charsLt b a = false := by
  intro a
  induction a with
  | nil =>
    intro b h
    cases b with
    | nil => cases h
    | cons d bs => rfl
  | cons c as ih =>
    intro b h
    cases b with
    | nil => cases h
    | cons d bs =>
      by_cases h1 : c.toNat < d.toNat
      · have h2 : ¬ d.toNat < c.toNat := by omega
        simp [charsLt, h1, h2]
      · by_cases h2 : d.toNat < c.toNat
        · simp [charsLt, h1, h2] at h
        · have h3 : charsLt as bs = true := by simpa [charsLt, h1, h2] using h
          simp [charsLt, h1, h2, ih bs h3]

/-- Helper: `strLt` is irreflexive. -/
theorem strLt_irrefl (a : String) : strLt a a = false := charsLt_irrefl a.data

/-- Helper: `strLt` is asymmetric. -/
theorem strLt_asymm {a b : String} (h : strLt a b = true) : strLt b a = false :=
  charsLt_asymm a.data b.data h

/-- Helper: inserting a key greater than every key of a sorted list
appends at the end. -/
theorem btree_insert_append {α : Type} :
    ∀ (L : List (String × α)) (k : String) (v : α),
    (∀ kv ∈ L, strLt kv.1 k = true) → btree_insert k v L = L ++ [(k, v)] := by
  intro L
  induction L with
  | nil => intro k v _; rfl
  | cons kv' L' ih =>
    intro k v h
    obtain ⟨k', v'⟩ := kv'
    have h1 : strLt k' k = true := h (k', v') (List.mem_cons_self _ _)
    have h2 : strLt k k' = false := strLt_asymm h1
    have h3 : k ≠ k' := by
      intro he
      rw [he, strLt_irrefl] at h1
      cases h1
    simp only [btree_insert, h2, Bool.false_eq_true, if_false, h3, List.cons_append,
      List.cons.injEq, true_and]
    exact ih k v (fun kv hkv => h kv (List.mem_cons_of_mem _ hkv))

/-- Helper: folding `btree_insert` over a strictly ascending list whose
keys all exceed those of the accumulator appends the list. -/
theorem foldl_btree_insert_sorted {α : Type} :
    ∀ (Q L : List (String × α)),
    (∀ kv ∈ L, ∀ kv' ∈ Q, strLt kv.1 kv'.1 = true) →
    List.Pairwise (fun a b : String × α => strLt a.1 b.1 = true) Q →
    List.foldl (fun acc kv => btree_insert kv.1 kv.2 acc) L Q = L ++ Q := by
  intro Q
  induction Q with
  | nil =>
    intro L _ _
    simp
  | cons q Q' ih =>
    intro L h hp
    rw [List.foldl_cons,
      btree_insert_append L q.1 q.2 (fun kv hkv => h kv hkv q (List.mem_cons_self _ _))]
    rw [ih (L ++ [q]) ?_ (List.pairwise_cons.mp hp).2]
    · simp
    · intro kv hkv kv' hkv'
      rcases List.mem_append.mp hkv with h1 | h1
      · exact h kv h1 kv' (List.mem_cons_of_mem _ hkv')
      · simp only [List.mem_singleton] at h1
        subst h1
        exact (List.pairwise_cons.mp hp).1 kv' hkv'

/-- Helper: when no schema entry is `Map`-typed with a prefix, the
prefixed-map matcher refuses every token. -/
theorem ppm_none_of (S : ParameterSchema)
    (h : ∀ kd ∈ S.parameters, kd.2.param_type = .map → kd.2.prefixStr = none) :
    ∀ t : String, parse_prefixed_map_token t S = none := by
  intro t
  unfold parse_prefixed_map_token
  suffices hgo : ∀ L : List (String × ParameterDefinition),
      (∀ kd ∈ L, kd.2.param_type = .map → kd.2.prefixStr = none) →
      parse_prefixed_map_token.go t L = none from hgo S.parameters h
  intro L
  induction L with
  | nil => intro _; rfl
  | cons kd L' ih =>
    intro hL
    obtain ⟨pk, def_⟩ := kd
    have ih' := ih (fun kd' h' => hL kd' (List.mem_cons_of_mem _ h'))
    by_cases hm : def_.param_type = .map
    · have hpre : def_.prefixStr = none := hL (pk, def_) (List.mem_cons_self _ _) hm
      simp [parse_prefixed_map_token.go, hm, hpre, ih']
    · simp [parse_prefixed_map_token.go, hm, ih']

/-- Helper: when no schema entry is an empty-flag prefixed `String`, the
prefixed-string matcher refuses every token. -/
theorem pps_none_of (S : ParameterSchema)
    (h : ∀ kd ∈ S.parameters,
      kd.2.param_type = .string ∧ kd.2.flag = "" → kd.2.prefixStr = none) :
    ∀ t : String, parse_prefixed_string_token t S = none := by
  intro t
  unfold parse_prefixed_string_token
  suffices hgo : ∀ L : List (String × ParameterDefinition),
      (∀ kd ∈ L, kd.2.param_type = .string ∧ kd.2.flag = "" → kd.2.prefixStr = none) →
      parse_prefixed_string_token.go t L = none from hgo S.parameters h
  intro L
  induction L with
  | nil => intro _; rfl
  | cons kd L' ih =>
    intro hL
    obtain ⟨pk, def_⟩ := kd
    have ih' := ih (fun kd' h' => hL kd' (List.mem_cons_of_mem _ h'))
    by_cases hm : def_.param_type = .string ∧ def_.flag = ""
    · have hpre : def_.prefixStr = none := hL (pk, def_) (List.mem_cons_self _ _) hm
      simp [parse_prefixed_string_token.go, hm, hpre, ih']
    · simp [parse_prefixed_string_token.go, hm, ih']

/-- Helper: on a non-flag token that neither matcher claims, one parse
step leaves the parameters unchanged and consumes nothing. -/
theorem parse_token_step_skip (pid : String) (S : ParameterSchema) (t : String)
    (la : Option String) (i : Nat) (acc : List (String × SpecValue))
    (hm : parse_prefixed_map_token t S = none)
    (hs : parse_prefixed_string_token t S = none)
    (hd : strStartsWith t "-" = false) :
    parse_token_step pid S t la i acc = (acc, false) := by
  unfold parse_token_step
  rw [hm, hs]
  by_cases hi : i = 0
  · simp [hi, hd]
  · simp [hi, hd]

/-- Helper: the token loop skips a non-flag token that neither matcher
claims. -/
theorem parse_tokens_loop_skip (pid : String) (S : ParameterSchema) (t : String)
    (rest : List String) (i : Nat) (acc : List (String × SpecValue))
    (hm : parse_prefixed_map_token t S = none)
    (hs : parse_prefixed_string_token t S = none)
    (hd : strStartsWith t "-" = false) :
    parse_tokens_loop pid S (t :: rest) i acc = parse_tokens_loop pid S rest (i + 1) acc := by
  cases rest with
  | nil =>
    show (parse_token_step pid S t none i acc).1 = _
    rw [parse_token_step_skip pid S t none i acc hm hs hd]
    rfl
  | cons next rest2 =>
    show (let r := parse_token_step pid S t (some next) i acc;
          if r.2 then parse_tokens_loop pid S rest2 (i + 2) r.1
          else parse_tokens_loop pid S (next :: rest2) (i + 1) r.1) = _
    rw [parse_token_step_skip pid S t (some next) i acc hm hs hd]
    rfl

/-- Helper: one parse step at a table-covered `Boolean` flag whose
lookahead is absent or itself a flag inserts `Bool(true)` and consumes
nothing. -/
theorem parse_token_step_bool (pid : String) (S : ParameterSchema) (f : String)
    (la : Option String) (i : Nat) (acc : List (String × SpecValue))
    (k : String) (def_ : ParameterDefinition)
    (hm : parse_prefixed_map_token f S = none)
    (hs : parse_prefixed_string_token f S = none)
    (hd : strStartsWith f "-" = true)
    (he : strContains f '=' = false)
    (hmap : map_flag_to_param pid f = some k)
    (hget : btree_get k S.parameters = some def_)
    (hty : def_.param_type = .boolean)
    (hla : la = none ∨ ∃ next, la = some next ∧ strStartsWith next "-" = true) :
    parse_token_step pid S f la i acc = (btree_insert k (.bool true) acc, false) := by
  obtain ⟨ty, fl, mu, pr, de⟩ := def_
  have hty' : ty = .boolean := hty
  subst hty'
  have happ : apply_flag pid S acc f none = btree_insert k (.bool true) acc := by
    unfold apply_flag
    rw [hmap]
    dsimp only
    rw [hget]
  unfold parse_token_step
  rw [hm, hs]
  rcases hla with rfl | ⟨next, rfl, hnext⟩
  · simp [hd, he, happ]
  · simp [hd, he, hnext, happ]

/-- Helper: one parse step at a table-covered `String` flag with a
non-flag lookahead inserts the lookahead as the value and consumes it. -/
theorem parse_token_step_string (pid : String) (S : ParameterSchema) (f s : String)
    (i : Nat) (acc : List (String × SpecValue))
    (k : String) (def_ : ParameterDefinition)
    (hm : parse_prefixed_map_token f S = none)
    (hs : parse_prefixed_string_token f S = none)
    (hd : strStartsWith f "-" = true)
    (he : strContains f '=' = false)
    (hmap : map_flag_to_param pid f = some k)
    (hget : btree_get k S.parameters = some def_)
    (hty : def_.param_type = .string)
    (hsv : strStartsWith s "-" = false) :
    parse_token_step pid S f (some s) i acc = (btree_insert k (.string s) acc, true) := by
  obtain ⟨ty, fl, mu, pr, de⟩ := def_
  have hty' : ty = .string := hty
  subst hty'
  have happ : apply_flag pid S acc f (some s) = btree_insert k (.string s) acc := by
    unfold apply_flag
    rw [hmap]
    dsimp only
    rw [hget]
  unfold parse_token_step
  rw [hm, hs]
  simp [hd, he, hsv, happ]

/-- Helper: the renderer succeeds on a round-trip-conforming parameter
map and produces exactly the `rt_tokens` argument vector. -/
theorem render_params_rt (pid : String) (S : ParameterSchema) :
    ∀ P : List (String × SpecValue), (∀ kv ∈ P, rt_param_ok pid S kv) →
    render_params S P = .ok (rt_tokens S P) := by
  intro P
  induction P with
  | nil => intro _; rfl
  | cons kv P' ih =>
    intro h
    obtain ⟨def_, hget, _, _, _, _, hcase⟩ := h kv (List.mem_cons_self _ _)
    have hrest := ih (fun kv' h' => h kv' (List.mem_cons_of_mem _ h'))
    obtain ⟨k, v⟩ := kv
    obtain ⟨ty, fl, mu, pr, de⟩ := def_
    rcases hcase with ⟨hty, hv⟩ | ⟨hty, s, hv, _, _⟩ <;>
      simp only at hty hv <;> subst hty <;> subst hv <;>
      simp [render_params, rt_tokens, List.flatMap_cons, hget, render_boolean,
        render_string, hrest, Except.map]

/-- Helper: every token the renderer produced for a round-trip-conforming
map is benign. -/
theorem rt_tokens_benign (pid : String) (S : ParameterSchema)
    (P : List (String × SpecValue)) (h : ∀ kv ∈ P, rt_param_ok pid S kv) :
    ∀ t ∈ rt_tokens S P, benignToken t = true := by
  intro t ht
  obtain ⟨kv, hkv, hmem⟩ := List.mem_flatMap.mp ht
  obtain ⟨def_, hget, _, hb, _, _, hcase⟩ := h kv hkv
  rcases hcase with ⟨hty, hv⟩ | ⟨hty, s, hv, hbs, _⟩ <;>
    rw [hget, hv] at hmem <;> simp at hmem
  · rw [hmem]
    exact hb
  · rcases hmem with rfl | rfl
    · exact hb
    · exact hbs

/-- Helper: the token list of a nonempty round-trip-conforming map starts
with a flag token. -/
theorem rt_tokens_head (pid : String) (S : ParameterSchema)
    (kv : String × SpecValue) (P : List (String × SpecValue))
    (h : rt_param_ok pid S kv) :
    ∃ f rest, rt_tokens S (kv :: P) = f :: rest ∧ strStartsWith f "-" = true := by
  obtain ⟨def_, hget, _, _, hd, _, hcase⟩ := h
  rcases hcase with ⟨hty, hv⟩ | ⟨hty, s, hv, _, _⟩
  · exact ⟨def_.flag, rt_tokens S P, by simp [rt_tokens, List.flatMap_cons, hget, hv], hd⟩
  · exact ⟨def_.flag, s :: rt_tokens S P,
      by simp [rt_tokens, List.flatMap_cons, hget, hv], hd⟩

/-- Helper: the token loop on a round-trip-conforming map's rendered
tokens rebuilds the map by folded insertion, from any index and
accumulator. -/
theorem parse_tokens_loop_rt (pid : String) (S : ParameterSchema)
    (hmm : ∀ t, parse_prefixed_map_token t S = none)
    (hss : ∀ t, parse_prefixed_string_token t S = none) :
    ∀ (P : List (String × SpecValue)) (i : Nat) (acc : List (String × SpecValue)),
    (∀ kv ∈ P, rt_param_ok pid S kv) →
    parse_tokens_loop pid S (rt_tokens S P) i acc =
      List.foldl (fun acc kv => btree_insert kv.1 kv.2 acc) acc P := by
  intro P
  induction P with
  | nil => intro i acc _; rfl
  | cons kv P' ih =>
    intro i acc h
    obtain ⟨def_, hget, hmap, hb, hd, he, hcase⟩ := h kv (List.mem_cons_self _ _)
    have hrest : ∀ kv' ∈ P', rt_param_ok pid S kv' :=
      fun kv' h' => h kv' (List.mem_cons_of_mem _ h')
    rcases hcase with ⟨hty, hv⟩ | ⟨hty, s, hv, hbs, hds⟩
    · have hrt : rt_tokens S (kv :: P') = def_.flag :: rt_tokens S P' := by
        simp [rt_tokens, List.flatMap_cons, hget, hv]
      rw [hrt]
      cases P' with
      | nil =>
        show parse_tokens_loop pid S [def_.flag] i acc = _
        show (parse_token_step pid S def_.flag none i acc).1 = _
        rw [parse_token_step_bool pid S def_.flag none i acc kv.1 def_
          (hmm _) (hss _) hd he hmap hget hty (Or.inl rfl)]
        simp [hv]
      | cons kv2 P'' =>
        obtain ⟨f2, rest2, hrt2, hd2⟩ :=
          rt_tokens_head pid S kv2 P'' (hrest kv2 (List.mem_cons_self _ _))
        rw [hrt2]
        show (let r := parse_token_step pid S def_.flag (some f2) i acc;
              if r.2 then parse_tokens_loop pid S rest2 (i + 2) r.1
              else parse_tokens_loop pid S (f2 :: rest2) (i + 1) r.1) = _
        rw [parse_token_step_bool pid S def_.flag (some f2) i acc kv.1 def_
          (hmm _) (hss _) hd he hmap hget hty (Or.inr ⟨f2, rfl, hd2⟩)]
        show parse_tokens_loop pid S (f2 :: rest2) (i + 1)
          (btree_insert kv.1 (.bool true) acc) = _
        rw [← hrt2, ih (i + 1) _ hrest]
        simp only [List.foldl_cons]
        rw [hv]
    · have hrt : rt_tokens S (kv :: P') = def_.flag :: s :: rt_tokens S P' := by
        simp [rt_tokens, List.flatMap_cons, hget, hv]
      rw [hrt]
      show (let r := parse_token_step pid S def_.flag (some s) i acc;
            if r.2 then parse_tokens_loop pid S (rt_tokens S P') (i + 2) r.1
            else parse_tokens_loop pid S (s :: rt_tokens S P') (i + 1) r.1) = _
      rw [parse_token_step_string pid S def_.flag s i acc kv.1 def_
        (hmm _) (hss _) hd he hmap hget hty hds]
      show parse_tokens_loop pid S (rt_tokens S P') (i + 2)
        (btree_insert kv.1 (.string s) acc) = _
      rw [ih (i + 2) _ hrest]
      simp only [List.foldl_cons]
      rw [hv]

/-- Helper: the token loop skips a run of benign non-flag program tokens
in front of the argument vector. -/
theorem parse_tokens_loop_preamble (pid : String) (S : ParameterSchema)
    (hmm : ∀ t, parse_prefixed_map_token t S = none)
    (hss : ∀ t, parse_prefixed_string_token t S = none) :
    ∀ (pre : List String) (i : Nat) (acc : List (String × SpecValue)) (rest : List String),
    (∀ t ∈ pre, strStartsWith t "-" = false) →
    parse_tokens_loop pid S (pre ++ rest) i acc =
      parse_tokens_loop pid S rest (i + pre.length) acc := by
  intro pre
  induction pre with
  | nil =>
    intro i acc rest _
    simp
  | cons t pre' ih =>
    intro i acc rest h
    rw [List.cons_append,
      parse_tokens_loop_skip pid S t (pre' ++ rest) i acc (hmm t) (hss t)
        (h t (List.mem_cons_self _ _)),
      ih (i + 1) acc rest (fun u hu => h u (List.mem_cons_of_mem _ hu))]
    have : i + 1 + pre'.length = i + (t :: pre').length := by
      simp [List.length_cons]
      omega
    rw [this]

/-- C1 amended: the round trip holds for every provider, schema and
parameter map in which (i) the schema has no prefixed `Map` entry and no
empty-flag prefixed `String` entry (either would let the prefix matchers
capture flag tokens), (ii) every supplied parameter is a `Boolean`
`true` or a benign non-flag `String` value whose schema flag is a benign
`-`-leading `=`-free token mapping back to its own key through the
provider's flag table, and (iii) the map is in `BTreeMap` (sorted) order:
rendering succeeds and parsing the joined command — any run of benign
non-flag program tokens followed by the rendered argument vector —
reconstructs the spec exactly.  In general the round trip fails: a
multi-element `Array` collapses to its last element (see the
counterexample), and by the rendering rules `Bool(false)`/`Null`
parameters are dropped and `Number` values return as `String`s. -/
theorem c1_round_trip_amended (pid path : String) (S : ParameterSchema)
    (pre : List String) (P : List (String × SpecValue))
    (hS : ∀ kd ∈ S.parameters,
      (kd.2.param_type = .map → kd.2.prefixStr = none) ∧
      (kd.2.param_type = .string ∧ kd.2.flag = "" → kd.2.prefixStr = none))
    (hpre : ∀ t ∈ pre, benignToken t = true ∧ strStartsWith t "-" = false)
    (hP : ∀ kv ∈ P, rt_param_ok pid S kv)
    (hsort : List.Pairwise (fun a b : String × SpecValue => strLt a.1 b.1 = true) P) :
    render S P = .ok ⟨rt_tokens S P, []⟩ ∧
    parse_command pid (join_tokens (pre ++ rt_tokens S P)) path S =
      .ok { version := SPEC_VERSION, provider_id := pid, project_path := path,
            parameters := P } := by
  constructor
  · unfold render
    rw [render_params_rt pid S P hP]
    rfl
  · have hmm := ppm_none_of S (fun kd hk => (hS kd hk).1)
    have hss := pps_none_of S (fun kd hk => (hS kd hk).2)
    have hben : ∀ t ∈ pre ++ rt_tokens S P, benignToken t = true := by
      intro t ht
      rcases List.mem_append.mp ht with h1 | h1
      · exact (hpre t h1).1
      · exact rt_tokens_benign pid S P hP t h1
    have hloop : parse_tokens_loop pid S (pre ++ rt_tokens S P) 0 [] = P := by
      rw [parse_tokens_loop_preamble pid S hmm hss pre 0 [] _ (fun t ht => (hpre t ht).2)]
      rw [parse_tokens_loop_rt pid S hmm hss P _ [] hP]
      rw [foldl_btree_insert_sorted P [] (by intro kv hkv; cases hkv) hsort]
      simp
    unfold parse_command parse_tokens
    rw [tokenize_join_benign _ hben]
    simp only [Except.map]
    rw [hloop]

/-- Witness for C1 amended: the dotnet provider, the repository's dotnet
test schema, the program tokens `dotnet publish` and the spec's own
example parameters. -/
theorem c1_round_trip_amended_witness :
    render dotnet_test_schema
        [("configuration", .string "Release"), ("runtime", .string "win-x64"),
         ("self_contained", .bool true)] =
      .ok ⟨rt_tokens dotnet_test_schema
        [("configuration", .string "Release"), ("runtime", .string "win-x64"),
         ("self_contained", .bool true)], []⟩ ∧
    parse_command "dotnet"
        (join_tokens (["dotnet", "publish"] ++ rt_tokens dotnet_test_schema
          [("configuration", .string "Release"), ("runtime", .string "win-x64"),
           ("self_contained", .bool true)]))
        "app.csproj" dotnet_test_schema =
      .ok { version := SPEC_VERSION, provider_id := "dotnet", project_path := "app.csproj",
            parameters := [("configuration", .string "Release"),
                           ("runtime", .string "win-x64"),
                           ("self_contained", .bool true)] } :=
  c1_round_trip_amended "dotnet" "app.csproj" dotnet_test_schema ["dotnet", "publish"]
    [("configuration", .string "Release"), ("runtime", .string "win-x64"),
     ("self_contained", .bool true)]
    (by decide)
    (by decide)
    (by
      intro kv hkv
      fin_cases hkv
      · exact ⟨⟨.string, "-c", none, none, none⟩, rfl, rfl, rfl, rfl, rfl,
          Or.inr ⟨rfl, "Release", rfl, rfl, rfl⟩⟩
      · exact ⟨⟨.string, "-r", none, none, none⟩, rfl, rfl, rfl, rfl, rfl,
          Or.inr ⟨rfl, "win-x64", rfl, rfl, rfl⟩⟩
      · exact ⟨⟨.boolean, "--self-contained", none, none, none⟩, rfl, rfl, rfl, rfl, rfl,
          Or.inl ⟨rfl, rfl⟩⟩)
    (by decide)

end OnePublish

